import Mathlib

/-!
Verification of the gemato core (recursive Manifest loader, entry verifier,
compression layer) against its natural-language specification.

The Python sources are shallowly embedded:
* relative paths are lists of path segments (`PathL`); `os.path.join a b` on
  relative paths is list append, `os.path.dirname` is `List.dropLast`;
* manifest entries become the structure `MEntry`; checksum dictionaries become
  association lists queried with `List.lookup` (Python dicts have unique keys,
  and all dict reads in the embedded code go through lookup);
* the filesystem is an oracle: `FileProbe` packages what
  `gemato.verify.get_file_metadata` would yield for one path (existence,
  device, file type, size, digests), and loader-level operations take
  oracle functions from paths to such probes;
* Python exceptions become the `Except GErr` monad;
* `sorted(..., key=len(...), reverse=True)` (a stable sort) is embedded as a
  stable insertion sort `stableSortBy`; Python string comparison is the
  code-point lexicographic order `strLe`.
-/

namespace Gemato

/-- Relative path inside the Manifest tree, as a list of segments. -/
abbrev PathL := List String

/-- Modelled from the spec: `gemato.util.path_starts_with` is not among the
provided sources; per the spec a Manifest whose directory `d` "covers" a path
`p` is one where `d` is a directory prefix of `p` (the empty directory covers
everything).  On segment lists this is exactly `List.isPrefixOf`. -/
def path_starts_with (path dir : PathL) : Bool :=
  dir.isPrefixOf path

/-- Modelled from the spec: `gemato.util.path_inside_dir` (used by the AUX
handling, "the path must lie under files/ of that Manifest"): the path lies
strictly inside the directory. -/
def path_inside_dir (path dir : PathL) : Bool :=
  dir.isPrefixOf path && path != dir

/-- Code-point lexicographic comparison of char lists (Python string `<=`). -/
def charListLe : List Char → List Char → Bool
  | [], _ => true
  | _ :: _, [] => false
  | a :: as, b :: bs =>
      if a.toNat < b.toNat then true
      else if b.toNat < a.toNat then false
      else charListLe as bs

/-- Python string comparison `a <= b` (code-point lexicographic). -/
def strLe (a b : String) : Bool := charListLe a.data b.data

/-- Stable insertion of `x` into `l`: `x` goes after every element `y` with
`le y x` (so elements comparing equal keep their original relative order). -/
def insStable {α : Type} (le : α → α → Bool) (x : α) : List α → List α
  | [] => [x]
  | y :: ys => if le y x then y :: insStable le x ys else x :: y :: ys

/-- Stable sort by `le` (embeds Python `sorted`, which is stable). -/
def stableSortBy {α : Type} (le : α → α → Bool) (l : List α) : List α :=
  l.foldl (fun acc x => insStable le x acc) []

/-- Manifest entry tags (the closed tag set of the data model). -/
inductive Tag
  | DATA | EBUILD | AUX | MISC | OPTIONAL
  | MANIFEST | DIST | IGNORE | TIMESTAMP
  deriving DecidableEq, Repr

/-- A Manifest entry: tag, path (as stored in the entry, relative to the
owning Manifest; for AUX this is the `.path` value, i.e. with the implicit
`files/` piece included), size and checksum dictionary.  `size` and
`checksums` are meaningful for the file-describing tags; for `IGNORE` and
`TIMESTAMP` the embedded code never reads them. -/
structure MEntry where
  tag : Tag
  path : PathL
  size : Nat
  checksums : List (String × String)
  deriving DecidableEq, Repr

/-- A parsed Manifest file: its ordered entry list.  (Signature framing and
OpenPGP state are outside the core per spec section 1.) -/
structure ManifestF where
  entries : List MEntry
  deriving DecidableEq, Repr

/-! ## File metadata probe and difference lists -/

/-- File type classes distinguished by `stat.S_IFMT` in the source. -/
inductive FType
  | regularFile | directory | characterDevice | blockDevice
  | namedPipe | unixSocket | unknownKind
  deriving DecidableEq, Repr

/-- What probing one filesystem path observes; this packages the data the
source obtains through `os.open`/`os.fstat`/`os.stat` and hashing (what
`gemato.verify.get_file_metadata` would yield): `fexists` is true unless
open failed with ENOENT; `opened` is false when open failed with ENXIO
(unconnected pipe or socket); `st_dev`, `ftype`, `st_size` come from stat;
`contentSize` is the synthetic `__size__` checksum measured by reading,
and `hashOf` gives the hex digest of the file content under each
Manifest-domain hash name. -/
structure FileProbe where
  fexists : Bool
  opened : Bool
  st_dev : Nat
  ftype : FType
  st_size : Nat
  contentSize : Nat
  hashOf : String → String

/-- An element of the difference list returned by `verify_path`; the four
constructors embed the `('__exists__', …)`, `('__type__', …)`,
`('__size__', …)` and `(hash-name, …)` tuple shapes. -/
inductive DiffItem
  | dExists (expected got : Bool)
  | dType (expected got : String)
  | dSize (expected got : Nat)
  | dHash (name : String) (expected got : String)
  deriving DecidableEq, Repr

/-- An element of the difference list returned by
`verify_entry_compatibility` (`('__type__', …)`, `('__size__', …)` and
per-hash triples whose sides may be absent). -/
inductive CompatDiff
  | cType (t1 t2 : Tag)
  | cSize (s1 s2 : Nat)
  | cHash (h : String) (v1 v2 : Option String)
  deriving DecidableEq, Repr

/-! ## Compression layer (`gemato/compression.py`) -/

/-- Python `os.path.splitext` on a flat filename string: split off the
extension at the last dot of the basename, unless every character of the
basename before that dot is itself a dot. -/
def splitext (p : String) : String × String :=
  let cs := p.data
  let base := (cs.reverse.takeWhile (fun c => c != '/')).reverse
  let dir := cs.take (cs.length - base.length)
  let extRev := base.reverse.takeWhile (fun c => c != '.')
  if extRev.length = base.length then
    (p, "")
  else
    let stem := base.take (base.length - extRev.length - 1)
    if stem.any (fun c => c != '.') then
      (String.mk (dir ++ stem), String.mk ('.' :: extRev.reverse))
    else
      (p, "")

/-- The `gemato.compression.get_compressed_suffix_from_filename` function:
returns the codec suffix (without the dot) when the final extension is one of
the four supported ones, `none` otherwise. -/
def get_compressed_suffix_from_filename (path : String) : Option String :=
  let ext := (splitext path).2
  if ext = ".gz" ∨ ext = ".bz2" ∨ ext = ".lzma" ∨ ext = ".xz" then
    some (String.mk (ext.data.drop 1))
  else
    none

/-- The `gemato.compression.get_potential_compressed_names` function. -/
def get_potential_compressed_names (path : String) : List String :=
  [path, path ++ ".gz", path ++ ".bz2", path ++ ".lzma", path ++ ".xz"]

/-- Codecs selectable in `open_compressed_file`. -/
inductive Codec
  | gzip | bzip2 | lzmaAlone | lzmaXz
  deriving DecidableEq, Repr

/-- A stream as produced by the compression layer: either a directly opened
file, or a codec layered over a stream, or a text wrapper on top. -/
inductive Stream
  | raw (path : String) (mode : String)
  | codec (c : Codec) (mode : String) (under : Stream)
  | textWrap (under : Stream)
  deriving DecidableEq, Repr

/-- Errors of the embedded system (spec section 6 contractual identities,
plus the Python-level `IOError(ENOENT)`, `AssertionError` and a fuel marker
for the embedded fixed-point loop). -/
inductive GErr
  | unsupportedCompression (suffix : String)
  | manifestMismatch (path : PathL) (entry : Option MEntry) (diff : List DiffItem)
  | manifestCrossDevice (path : PathL)
  | manifestIncompatibleEntry (e1 e2 : MEntry) (diff : List CompatDiff)
  | manifestInvalidPath (detail : String)
  | ioENOENT (path : PathL)
  | assertionError (msg : String)
  | residualDirty (paths : List PathL)
  | outOfFuel
  deriving DecidableEq, Repr

instance {α : Type} [DecidableEq α] : DecidableEq (Except GErr α) := fun a b =>
  match a, b with
  | .ok x, .ok y =>
      if h : x = y then isTrue (by rw [h]) else isFalse (by simp [h])
  | .error x, .error y =>
      if h : x = y then isTrue (by rw [h]) else isFalse (by simp [h])
  | .ok _, .error _ => isFalse (by simp)
  | .error _, .ok _ => isFalse (by simp)

/-- The `gemato.compression.open_compressed_file` function.  The `bz2Avail`
and `lzmaAvail` flags embed the source's `bz2 is not None` / `lzma is not
None` module-availability tests. -/
def open_compressed_file (bz2Avail lzmaAvail : Bool) (suffix : String)
    (f : Stream) (cmode : String) : Except GErr Stream :=
  if suffix = "gz" then .ok (.codec .gzip cmode f)
  else if suffix = "bz2" ∧ bz2Avail then .ok (.codec .bzip2 cmode f)
  else if suffix = "lzma" ∧ lzmaAvail then .ok (.codec .lzmaAlone cmode f)
  else if suffix = "xz" ∧ lzmaAvail then .ok (.codec .lzmaXz cmode f)
  else .error (.unsupportedCompression suffix)

/-- The `gemato.compression.open_potentially_compressed_path` function.
`textOpts` embeds whether extra `TextIOWrapper` keyword options were given
(the source's `kwargs`); the returned `Stream` is the topmost layer of the
file stack handed to the caller. -/
def open_potentially_compressed_path (bz2Avail lzmaAvail : Bool)
    (path mode : String) (textOpts : Bool) : Except GErr Stream :=
  match get_compressed_suffix_from_filename path with
  | none => .ok (.raw path mode)
  | some compression =>
      let bmode := if mode.data.contains 'b' then mode else mode ++ "b"
      let f := Stream.raw path bmode
      let cmode := if textOpts then bmode else mode
      match open_compressed_file bz2Avail lzmaAvail compression f cmode with
      | .error e => .error e
      | .ok cf =>
          if ¬ mode.data.contains 'b' then .ok (.textWrap cf) else .ok cf

/-! ## Entry verifier (`gemato/verify.py`) -/

/-- The human-readable type name chosen by `verify_path` when the path is
not an opened regular file (the source checks ISDIR/ISCHR/ISBLK/ISREG/
ISFIFO/ISSOCK in that order; ISREG is reachable only in the ENXIO case). -/
def verifyTypeName : FType → String
  | .directory => "directory"
  | .characterDevice => "character device"
  | .blockDevice => "block device"
  | .regularFile => "unconnected regular file (?!)"
  | .namedPipe => "named pipe"
  | .unixSocket => "UNIX socket"
  | .unknownKind => "unknown"

/-- The per-hash loop at the end of `verify_path`: for each of the entry's
hash names (in sorted order), a digest mismatch contributes a triple. -/
def verify_path_hash_diffs (en : MEntry) (fp : FileProbe) :
    List String → List DiffItem
  | [] => []
  | ek :: t =>
      let rest := verify_path_hash_diffs en fp t
      match en.checksums.lookup ek with
      | some exp =>
          if fp.hashOf ek != exp then
            DiffItem.dHash ek exp (fp.hashOf ek) :: rest
          else rest
      | none => rest

/-- The expected-existence rule of `verify_path`: the file is expected to
exist unless the entry is missing or `OPTIONAL`. -/
def verify_path_expect_exist (e : Option MEntry) : Bool :=
  match e with
  | some en => en.tag != Tag.OPTIONAL
  | none => false

/-- The `gemato.verify.verify_path` function.  In source order: IGNORE
short-circuit, existence check, device check (hard `ManifestCrossDevice`),
regular-file check, `st_size` check (skipped when `st_size` is 0), then the
size-and-checksum difference list. -/
def verify_path (path : PathL) (e : Option MEntry) (expectedDev : Option Nat)
    (fp : FileProbe) : Except GErr (Bool × List DiffItem) :=
  match e with
  | none =>
      if fp.fexists != false then .ok (false, [.dExists false fp.fexists])
      else .ok (true, [])
  | some en =>
      if en.tag = .IGNORE then .ok (true, [])
      else
        let expectExist : Bool := en.tag != .OPTIONAL
        if fp.fexists != expectExist then
          .ok (false, [.dExists expectExist fp.fexists])
        else if !fp.fexists then .ok (true, [])
        else if (match expectedDev with
                 | some d => fp.st_dev != d
                 | none => false) then
          .error (.manifestCrossDevice path)
        else if !fp.opened || fp.ftype != .regularFile then
          .ok (false, [.dType "regular file" (verifyTypeName fp.ftype)])
        else if fp.st_size ≠ 0 ∧ fp.st_size ≠ en.size then
          .ok (false, [.dSize en.size fp.st_size])
        else
          let sizeDiffs :=
            if fp.contentSize ≠ en.size then
              [DiffItem.dSize en.size fp.contentSize]
            else []
          let diff := sizeDiffs ++
            verify_path_hash_diffs en fp
              (stableSortBy strLe (en.checksums.map Prod.fst))
          if diff.isEmpty then .ok (true, []) else .ok (false, diff)

/-- The tag set the source treats as one semantic domain. -/
def COMPATIBLE_TAGS : List Tag := [.MANIFEST, .DATA, .EBUILD, .AUX]

/-- The checksum-comparison loop of `verify_entry_compatibility`: for each
hash name (ascending), a differing pair is appended to the diff, and the
result flips to incompatible only when both sides are present. -/
def verify_entry_compatibility_loop (c1 c2 : List (String × String)) :
    List String → Bool × List CompatDiff
  | [] => (true, [])
  | h :: t =>
      let rest := verify_entry_compatibility_loop c1 c2 t
      let h1 := c1.lookup h
      let h2 := c2.lookup h
      if h1 = h2 then rest
      else ((if h1.isSome && h2.isSome then false else rest.1),
            .cHash h h1 h2 :: rest.2)

/-- The `gemato.verify.verify_entry_compatibility` function: tag-domain
check, exact size check, then the per-hash loop over the sorted union of
both hash-name sets. -/
def verify_entry_compatibility (e1 e2 : MEntry) : Bool × List CompatDiff :=
  if e1.tag ≠ e2.tag ∧
      (e1.tag ∉ COMPATIBLE_TAGS ∨ e2.tag ∉ COMPATIBLE_TAGS) then
    (false, [.cType e1.tag e2.tag])
  else if e1.size ≠ e2.size then
    (false, [.cSize e1.size e2.size])
  else
    verify_entry_compatibility_loop e1.checksums e2.checksums
      (stableSortBy strLe
        ((e1.checksums.map Prod.fst ++ e2.checksums.map Prod.fst).dedup))

/-- Modelled from the spec: `gemato.verify.update_entry_for_path` is not
among the provided sources (only its callers in the recursive loader are).
Per spec sections 4.6 and 4.6.save it recomputes the entry's size and
checksums from the file on disk, enforces the device invariant as a hard
`ManifestCrossDevice`, surfaces a missing file as `ManifestInvalidPath`
whose detail starts with `__exists__` (the loader catches exactly that),
uses the requested hash set when given and otherwise reuses the entry's
existing hash names, and reports whether the entry changed. -/
def verify_update_entry_for_path (path : PathL) (e : MEntry)
    (hashes : Option (List String)) (expectedDev : Option Nat)
    (fp : FileProbe) : Except GErr (Bool × MEntry) :=
  if !fp.fexists then .error (.manifestInvalidPath "__exists__")
  else if (match expectedDev with
           | some d => fp.st_dev != d
           | none => false) then
    .error (.manifestCrossDevice path)
  else
    let hs := match hashes with
      | some hs => hs
      | none => e.checksums.map Prod.fst
    let newChecksums := (stableSortBy strLe hs).map (fun h => (h, fp.hashOf h))
    let e2 : MEntry := { e with size := fp.st_size, checksums := newChecksums }
    .ok (e2 != e, e2)

/-! ## Recursive loader (`gemato/recursiveloader.py`) -/

/-- Insert into an insertion-ordered duplicate-free list (embeds adding to a
Python `set`). -/
def listInsertSet {α : Type} [DecidableEq α] (s : List α) (x : α) : List α :=
  if x ∈ s then s else s ++ [x]

/-- Update a key in an association list, keeping the binding's position when
the key is already present and appending otherwise (Python dict assignment
semantics). -/
def assocSet {α β : Type} [DecidableEq α] :
    List (α × β) → α → β → List (α × β)
  | [], k, v => [(k, v)]
  | (k0, v0) :: t, k, v =>
      if k0 = k then (k, v) :: t else (k0, v0) :: assocSet t k v

/-- Delete a key from an association list (Python dict `del` / `pop`). -/
def assocErase {α β : Type} [DecidableEq α] :
    List (α × β) → α → List (α × β)
  | [], _ => []
  | (k0, v0) :: t, k => if k0 = k then t else (k0, v0) :: assocErase t k

/-- Loader forest state: `loaded` embeds the insertion-ordered dict
`loaded_manifests`, `updated` the set `updated_manifests`, and `device`
the `manifest_device` attribute. -/
structure LoaderState where
  loaded : List (PathL × ManifestF)
  updated : List PathL
  device : Nat
  deriving DecidableEq, Repr

/-- The `_iter_unordered_manifests_for_path` method: loaded Manifests whose
directory covers `path` (plus, when `recursive`, those inside `path`), as
`(manifest_path, dir_path, manifest)` triples in dict insertion order. -/
def iter_unordered_manifests_for_path (st : LoaderState) (path : PathL)
    (recursive : Bool) : List (PathL × PathL × ManifestF) :=
  st.loaded.filterMap fun kv =>
    let d := kv.1.dropLast
    if path_starts_with path d then some (kv.1, d, kv.2)
    else if recursive && path_starts_with d path then some (kv.1, d, kv.2)
    else none

/-- The `_iter_manifests_for_path` method: same triples, stably sorted with
the deepest directory (longest `dir_path`) first. -/
def iter_manifests_for_path (st : LoaderState) (path : PathL)
    (recursive : Bool) : List (PathL × PathL × ManifestF) :=
  stableSortBy (fun a b => decide (b.2.1.length ≤ a.2.1.length))
    (iter_unordered_manifests_for_path st path recursive)

/-- The per-entry test inside `find_path_entry`: an `IGNORE` entry matches
when its composed directory covers the query path, `DIST` and `TIMESTAMP`
never match, and any other entry matches when its composed path equals the
query path. -/
def entry_matches_path (queryPath dir : PathL) (e : MEntry) : Bool :=
  match e.tag with
  | .IGNORE => path_starts_with queryPath (dir ++ e.path)
  | .DIST => false
  | .TIMESTAMP => false
  | _ => dir ++ e.path == queryPath

/-- Inner loop of `find_path_entry` over one Manifest's entries: first
matching entry wins. -/
def find_path_entry_entries (queryPath dir : PathL) :
    List MEntry → Option MEntry
  | [] => none
  | e :: es =>
      if entry_matches_path queryPath dir e then some e
      else find_path_entry_entries queryPath dir es

/-- Outer loop of `find_path_entry` over the deepest-first Manifest list. -/
def find_path_entry_manifests (queryPath : PathL) :
    List (PathL × PathL × ManifestF) → Option MEntry
  | [] => none
  | kdm :: rest =>
      match find_path_entry_entries queryPath kdm.2.1 kdm.2.2.entries with
      | some e => some e
      | none => find_path_entry_manifests queryPath rest

/-- The `find_path_entry` method, on an already-loaded forest (the method
first runs `load_manifests_for_path`, embedded separately below). -/
def find_path_entry (st : LoaderState) (path : PathL) : Option MEntry :=
  find_path_entry_manifests path (iter_manifests_for_path st path false)

/-- Specification-style restatement of `find_path_entry` used to settle C1:
the first entry, in the deepest-first flattening of all applicable
Manifests, that either is an `IGNORE` covering the path or composes to
exactly the path (`DIST`/`TIMESTAMP` skipped). -/
def find_path_entry_spec (st : LoaderState) (path : PathL) : Option MEntry :=
  (((iter_manifests_for_path st path false).flatMap fun kdm =>
      kdm.2.2.entries.map fun e => (kdm.2.1, e)).find? fun de =>
        entry_matches_path path de.1 de.2).map Prod.snd

/-- What the filesystem holds at a Manifest path: a parseable Manifest file
on some device, or nothing (in which case the parent directory's device is
what `os.stat(os.path.dirname(path))` would report). -/
inductive FsManifestFile
  | present (m : ManifestF) (stDev : Nat)
  | absent (parentDev : Nat)
  deriving DecidableEq, Repr

/-- Open-and-register phase of `load_manifest` (after the optional entry
verification): on success the loaded Manifest is recorded and
`manifest_device` is set from the opened file's `st_dev`; a missing file
with `allow_create` registers a fresh empty Manifest, marks it dirty and
takes the parent directory's device; otherwise the ENOENT propagates. -/
def load_manifest_open (st : LoaderState) (relpath : PathL)
    (fsm : FsManifestFile) (allowCreate : Bool) :
    Except GErr (ManifestF × LoaderState) :=
  match fsm with
  | .present m dev =>
      .ok (m, { st with device := dev, loaded := assocSet st.loaded relpath m })
  | .absent parentDev =>
      if allowCreate then
        let m : ManifestF := { entries := [] }
        .ok (m, { st with device := parentDev,
                          updated := listInsertSet st.updated relpath,
                          loaded := assocSet st.loaded relpath m })
      else .error (.ioENOENT relpath)

/-- The `load_manifest` method: verify against `verifyEntry` when given
(raising `ManifestMismatch` on failure), then open and register. -/
def load_manifest (st : LoaderState) (relpath : PathL)
    (verifyEntry : Option MEntry) (fp : FileProbe) (fsm : FsManifestFile)
    (allowCreate : Bool) : Except GErr (ManifestF × LoaderState) :=
  match verifyEntry with
  | some ve =>
      match verify_path relpath (some ve) none fp with
      | .error err => .error err
      | .ok (ret, diff) =>
          if !ret then .error (.manifestMismatch relpath (some ve) diff)
          else load_manifest_open st relpath fsm allowCreate
  | none => load_manifest_open st relpath fsm allowCreate

/-- Filesystem oracle for the loader: per-path file probes, the Manifest
file (and its device) present at a path, and directory devices. -/
structure DiskFS where
  probe : PathL → FileProbe
  manifestAt : PathL → Option (ManifestF × Nat)
  dirDev : PathL → Nat

/-- `load_manifest` against the filesystem oracle. -/
def load_manifest_fs (fs : DiskFS) (st : LoaderState) (relpath : PathL)
    (verifyEntry : Option MEntry) (allowCreate : Bool) :
    Except GErr (ManifestF × LoaderState) :=
  load_manifest st relpath verifyEntry (fs.probe relpath)
    (match fs.manifestAt relpath with
     | some md => .present md.1 md.2
     | none => .absent (fs.dirDev relpath.dropLast))
    allowCreate

/-- One round of the `load_manifests_for_path` fixed-point loop: the list of
`(mpath, entry)` pairs of sub-Manifests referenced by currently applicable
Manifests that are not yet loaded and whose directory intersects the query
scope. -/
def load_manifests_to_load (st : LoaderState) (path : PathL)
    (recursive : Bool) : List (PathL × MEntry) :=
  (iter_manifests_for_path st path recursive).flatMap fun kdm =>
    kdm.2.2.entries.filterMap fun e =>
      if e.tag != .MANIFEST then none
      else
        let mpath := kdm.2.1 ++ e.path
        if kdm.1 == mpath || (st.loaded.lookup mpath).isSome then none
        else
          let mdir := mpath.dropLast
          if path_starts_with path mdir then some (mpath, e)
          else if recursive && path_starts_with mdir path then some (mpath, e)
          else none

/-- Load every Manifest of one `to_load` batch in order, verifying each
against its referencing `MANIFEST` entry. -/
def load_manifest_list (fs : DiskFS) :
    List (PathL × MEntry) → LoaderState → Except GErr LoaderState
  | [], st => .ok st
  | me :: rest, st =>
      match load_manifest_fs fs st me.1 (some me.2) false with
      | .error err => .error err
      | .ok mst => load_manifest_list fs rest mst.2

/-- The `load_manifests_for_path` method: repeat computing and loading the
`to_load` batch until it is empty.  The loop is embedded with explicit
fuel; `outOfFuel` marks exhaustion (on a finite filesystem the source loop
terminates because every round loads at least one new Manifest). -/
def load_manifests_for_path (fs : DiskFS) (path : PathL) (recursive : Bool) :
    Nat → LoaderState → Except GErr LoaderState
  | 0, _ => .error .outOfFuel
  | fuel + 1, st =>
      let toLoad := load_manifests_to_load st path recursive
      if toLoad.isEmpty then .ok st
      else
        match load_manifest_list fs toLoad st with
        | .error err => .error err
        | .ok st2 => load_manifests_for_path fs path recursive fuel st2

/-- Merge step of `get_file_entry_dict`: a colliding path raises
`ManifestIncompatibleEntry` when the two entries are incompatible, and
otherwise stores the later entry augmented with the checksums present only
on the already-installed side. -/
def entry_dict_merge (out : List (PathL × MEntry)) (fullpath : PathL)
    (e : MEntry) : Except GErr (List (PathL × MEntry)) :=
  match out.lookup fullpath with
  | none => .ok (assocSet out fullpath e)
  | some e0 =>
      let rd := verify_entry_compatibility e0 e
      if !rd.1 then .error (.manifestIncompatibleEntry e0 e rd.2)
      else
        let e2 :=
          if rd.2.isEmpty then e
          else { e with checksums := rd.2.foldl (fun cs d =>
                   match d with
                   | .cHash k (some v) none => assocSet cs k v
                   | _ => cs) e.checksums }
        .ok (assocSet out fullpath e2)

/-- Per-Manifest entry loop of `get_file_entry_dict`.  Mirrors the source
faithfully, including its quirk that encountering a `DIST` entry (possible
only with `only_types`) reassigns the loop-carried `relpath` variable to
the empty path for all subsequent entries of the same Manifest. -/
def get_file_entry_dict_entries (path : PathL) (onlyTypes : Option (List Tag)) :
    List MEntry → PathL → List (PathL × MEntry) →
    Except GErr (List (PathL × MEntry))
  | [], _, out => .ok out
  | e :: rest, relpathCur, out =>
      let skip : Bool :=
        match onlyTypes with
        | some ts => e.tag ∉ ts
        | none => e.tag = .DIST ∨ e.tag = .TIMESTAMP
      if skip then get_file_entry_dict_entries path onlyTypes rest relpathCur out
      else
        let relpath2 :=
          match onlyTypes with
          | some _ => if e.tag = .DIST then ([] : PathL) else relpathCur
          | none => relpathCur
        let fullpath := relpath2 ++ e.path
        if path_starts_with fullpath path then
          match entry_dict_merge out fullpath e with
          | .error err => .error err
          | .ok out2 => get_file_entry_dict_entries path onlyTypes rest relpath2 out2
        else
          get_file_entry_dict_entries path onlyTypes rest relpath2 out

/-- Outer Manifest loop of `get_file_entry_dict`. -/
def get_file_entry_dict_manifests (path : PathL)
    (onlyTypes : Option (List Tag)) :
    List (PathL × PathL × ManifestF) → List (PathL × MEntry) →
    Except GErr (List (PathL × MEntry))
  | [], out => .ok out
  | kdm :: rest, out =>
      match get_file_entry_dict_entries path onlyTypes kdm.2.2.entries
          kdm.2.1 out with
      | .error err => .error err
      | .ok out2 => get_file_entry_dict_manifests path onlyTypes rest out2

/-- Pure part of `get_file_entry_dict`, over an already-loaded forest. -/
def get_file_entry_dict_pure (st : LoaderState) (path : PathL)
    (onlyTypes : Option (List Tag)) : Except GErr (List (PathL × MEntry)) :=
  get_file_entry_dict_manifests path onlyTypes
    (iter_manifests_for_path st path true) []

/-- The `get_file_entry_dict` method: recursive ensure-load for `path`,
then the composed entry map.  Returns the map together with the resulting
forest state. -/
def get_file_entry_dict (fs : DiskFS) (st : LoaderState) (path : PathL)
    (onlyTypes : Option (List Tag)) (fuel : Nat) :
    Except GErr (List (PathL × MEntry) × LoaderState) :=
  match load_manifests_for_path fs path true fuel st with
  | .error err => .error err
  | .ok st2 =>
      match get_file_entry_dict_pure st2 path onlyTypes with
      | .error err => .error err
      | .ok d => .ok (d, st2)

/-- The loader's `verify_path` method: ensure-load for the path, find its
entry, and verify the file against it with NO expected device. -/
def loader_verify_path (fs : DiskFS) (st : LoaderState) (relpath : PathL)
    (fuel : Nat) : Except GErr (Bool × List DiffItem) :=
  match load_manifests_for_path fs relpath false fuel st with
  | .error err => .error err
  | .ok st2 =>
      verify_path relpath (find_path_entry st2 relpath) none (fs.probe relpath)

/-- The `assert_path_verifies` method: like `loader_verify_path` but the
expected device is the loader's `manifest_device`, and a failed
verification raises `ManifestMismatch`. -/
def assert_path_verifies (fs : DiskFS) (st : LoaderState) (relpath : PathL)
    (fuel : Nat) : Except GErr Unit :=
  match load_manifests_for_path fs relpath false fuel st with
  | .error err => .error err
  | .ok st2 =>
      match verify_path relpath (find_path_entry st2 relpath)
          (some st2.device) (fs.probe relpath) with
      | .error err => .error err
      | .ok rd =>
          if !rd.1 then
            .error (.manifestMismatch relpath (find_path_entry st2 relpath) rd.2)
          else .ok ()

/-- Python `name.startswith('.')`. -/
def strStartsWithDot (s : String) : Bool :=
  match s.data with
  | c :: _ => c == '.'
  | [] => false

/-- What the directory loop of `assert_directory_verifies` decides for one
name. -/
inductive DirStepAction
  | skipDot
  | strayAccepted
  | skipIgnored
  | verifyEntry (e : MEntry)
  deriving DecidableEq, Repr

/-- One subdirectory step of the `assert_directory_verifies` walk (source
lines handling `dirnames`): dotfiles are skipped; a directory with no
popped entry is stat'ed and a foreign device is a hard
`ManifestCrossDevice`; a popped `IGNORE` prunes the subtree; any other
popped entry goes to per-file verification.  `dirDev` is the `st_dev` of
the subdirectory. -/
def assert_directory_verifies_dir_step (manifestDevice : Nat)
    (relpath : PathL) (d : String) (entryDict : List (PathL × MEntry))
    (dirDev : Nat) : Except GErr (DirStepAction × List (PathL × MEntry)) :=
  if strStartsWithDot d then .ok (.skipDot, entryDict)
  else
    let dpath := relpath ++ [d]
    match entryDict.lookup dpath with
    | none =>
        if dirDev ≠ manifestDevice then .error (.manifestCrossDevice dpath)
        else .ok (.strayAccepted, entryDict)
    | some de =>
        let rest := assocErase entryDict dpath
        if de.tag = .IGNORE then .ok (.skipIgnored, rest)
        else .ok (.verifyEntry de, rest)

/-! ## Updater and saver -/

/-- Entry scan of one Manifest inside `update_entry_for_path`: walks the
entry list carrying `had_entry`, producing the surviving (possibly
updated) entries together with whether any entry was removed, whether the
Manifest was marked dirty directly (a successful in-place update), and the
final `had_entry`. -/
def update_entry_scan (probe : PathL → FileProbe) (device : Nat)
    (path relpath : PathL) (hashes : Option (List String)) :
    List MEntry → Bool → Except GErr (List MEntry × Bool × Bool × Bool)
  | [], hadEntry => .ok ([], false, false, hadEntry)
  | e :: rest, hadEntry =>
      let keep := fun (e2 : MEntry) (dirty : Bool) (hadEntry2 : Bool) =>
        match update_entry_scan probe device path relpath hashes rest hadEntry2 with
        | .error err => .error err
        | .ok (es, removedAny, dirtyAny, had) =>
            .ok (e2 :: es, removedAny, dirty || dirtyAny, had)
      let drop := fun (hadEntry2 : Bool) =>
        match update_entry_scan probe device path relpath hashes rest hadEntry2 with
        | .error err => .error err
        | .ok (es, _, dirtyAny, had) => .ok (es, true, dirtyAny, had)
      match e.tag with
      | .IGNORE =>
          if path_starts_with path (relpath ++ e.path) then
            .error (.assertionError "update_entry_for_path under IGNORE")
          else keep e false hadEntry
      | .DIST => keep e false hadEntry
      | .TIMESTAMP => keep e false hadEntry
      | .OPTIONAL => keep e false (hadEntry || (relpath ++ e.path == path))
      | _ =>
          let fullpath := relpath ++ e.path
          if fullpath ≠ path then keep e false hadEntry
          else if hadEntry then drop hadEntry
          else
            match verify_update_entry_for_path fullpath e hashes
                (some device) (probe fullpath) with
            | .error (.manifestInvalidPath detail) =>
                if detail = "__exists__" then drop true
                else .error (.manifestInvalidPath detail)
            | .error err => .error err
            | .ok ce => keep ce.2 true true

/-- Manifest loop of `update_entry_for_path` over the deepest-first
snapshot, threading the forest state and `had_entry`. -/
def update_entry_manifests (probe : PathL → FileProbe) (device : Nat)
    (path : PathL) (hashes : Option (List String)) :
    List (PathL × PathL × ManifestF) → LoaderState → Bool →
    Except GErr (LoaderState × Bool)
  | [], st, hadEntry => .ok (st, hadEntry)
  | kdm :: rest, st, hadEntry =>
      match st.loaded.lookup kdm.1 with
      | none => .error (.assertionError "loaded Manifest disappeared")
      | some m =>
          match update_entry_scan probe device path kdm.2.1 hashes
              m.entries hadEntry with
          | .error err => .error err
          | .ok (newEntries, removedAny, dirtyDirect, hadEntry2) =>
              let st2 := { st with
                loaded := assocSet st.loaded kdm.1 { entries := newEntries } }
              let st3 :=
                if dirtyDirect || removedAny then
                  { st2 with updated := listInsertSet st2.updated kdm.1 }
                else st2
              update_entry_manifests probe device path hashes rest st3 hadEntry2

/-- Creation step of `update_entry_for_path` when no entry existed: append
a fresh entry of the requested type to the first (deepest) applicable
Manifest, with the AUX `files/` assertion. -/
def update_entry_create (probe : PathL → FileProbe) (device : Nat)
    (path : PathL) (newType : Tag) (hashes : Option (List String))
    (manifests : List (PathL × PathL × ManifestF)) (st : LoaderState) :
    Except GErr LoaderState :=
  match manifests with
  | [] => .ok st
  | kdm :: _ =>
      if newType = .DIST ∨ newType = .IGNORE ∨ newType = .OPTIONAL then
        .error (.assertionError "bad new_entry_type")
      else
        let newpath := path.drop kdm.2.1.length
        if newType = .AUX ∧ ¬ path_inside_dir newpath ["files"] then
          .error (.assertionError "AUX entry outside files/")
        else
          let e : MEntry :=
            { tag := newType, path := newpath, size := 0, checksums := [] }
          match verify_update_entry_for_path path e hashes (some device)
              (probe path) with
          | .error err => .error err
          | .ok ce =>
              match st.loaded.lookup kdm.1 with
              | none => .error (.assertionError "loaded Manifest disappeared")
              | some m =>
                  .ok { st with
                    loaded := assocSet st.loaded kdm.1
                      { entries := m.entries ++ [ce.2] },
                    updated := listInsertSet st.updated kdm.1 }

/-- The loader's `update_entry_for_path` method.  `selfHashes` is the hash
set from the constructor, used when the call passes none. -/
def update_entry_for_path (fs : DiskFS) (st : LoaderState) (path : PathL)
    (newType : Tag) (hashes0 selfHashes : Option (List String))
    (fuel : Nat) : Except GErr LoaderState :=
  let hashes := match hashes0 with
    | some h => some h
    | none => selfHashes
  match load_manifests_for_path fs path false fuel st with
  | .error err => .error err
  | .ok st2 =>
      match update_entry_manifests fs.probe st2.device path hashes
          (iter_manifests_for_path st2 path false) st2 false with
      | .error err => .error err
      | .ok sh =>
          if sh.2 then .ok sh.1
          else if hashes.isNone then .error (.assertionError "hashes is None")
          else update_entry_create fs.probe sh.1.device path newType hashes
            (iter_manifests_for_path sh.1 path false) sh.1

/-- Last segment of a path. -/
def pathLastSegment (p : PathL) : String := p.getLast?.getD ""

/-- Append a compression suffix to the last segment
(`mpath + '.' + compress_format`). -/
def pathLastAddSuffix (p : PathL) (sfx : String) : PathL :=
  p.dropLast ++ [pathLastSegment p ++ "." ++ sfx]

/-- Drop `n` trailing characters from the last segment
(`mpath[:-len(compr)-1]`). -/
def pathLastDropChars (p : PathL) (n : Nat) : PathL :=
  let cs := (pathLastSegment p).data
  p.dropLast ++ [String.mk (cs.take (cs.length - n))]

/-- The top-level Manifest path under all supported compressed names. -/
def top_manifest_paths : List PathL :=
  (get_potential_compressed_names "Manifest").map fun s => [s]

/-- Mutable bookkeeping of one `save_manifests` run: the evolving
`loaded_manifests` dict plus the `updated_manifests`, `fixed_manifests`
and `renamed_manifests` collections. -/
structure SaveCtx where
  loaded : List (PathL × ManifestF)
  updated : List PathL
  fixed : List PathL
  renamed : List (PathL × PathL)
  deriving DecidableEq, Repr

/-- `MANIFEST`-entry scan of one Manifest inside `save_manifests`: apply
rename bookkeeping to each `MANIFEST` entry's path, and when the referenced
sub-Manifest is dirty (or `force`), refresh the entry from disk, add the
sub-Manifest to `fixed_manifests` and mark this Manifest dirty. -/
def save_entries_scan (probe : PathL → FileProbe) (device : Nat)
    (hashes : Option (List String)) (force : Bool) (mpath relpath : PathL)
    (renamed : List (PathL × PathL)) :
    List MEntry → List PathL → List PathL →
    Except GErr (List MEntry × List PathL × List PathL)
  | [], updated, fixed => .ok ([], updated, fixed)
  | e :: rest, updated, fixed =>
      if e.tag ≠ .MANIFEST then
        match save_entries_scan probe device hashes force mpath relpath
            renamed rest updated fixed with
        | .error err => .error err
        | .ok out => .ok (e :: out.1, out.2)
      else
        let epath := (renamed.lookup e.path).getD e.path
        let e1 := { e with path := epath }
        let fullpath := relpath ++ epath
        if ¬ force ∧ fullpath ∉ updated then
          match save_entries_scan probe device hashes force mpath relpath
              renamed rest updated fixed with
          | .error err => .error err
          | .ok out => .ok (e1 :: out.1, out.2)
        else
          match verify_update_entry_for_path fullpath e1 hashes
              (some device) (probe fullpath) with
          | .error err => .error err
          | .ok ce =>
              match save_entries_scan probe device hashes force mpath relpath
                  renamed rest (listInsertSet updated mpath)
                  (listInsertSet fixed fullpath) with
              | .error err => .error err
              | .ok out => .ok (ce.2 :: out.1, out.2)

/-- Manifest loop of `save_manifests` over the deepest-first snapshot of
`(manifest_path, dir_path)` pairs: scan the `MANIFEST` entries, then save
the Manifest when dirty (or `force`), applying the compression-watermark
rename when requested.  `uncSize` is the uncompressed character count that
`save_manifest` reports for writing a Manifest. -/
def save_manifests_steps (probe : PathL → FileProbe) (device : Nat)
    (hashes : Option (List String)) (force : Bool) (watermark : Option Nat)
    (fmt : String) (uncSize : PathL → ManifestF → Nat) :
    List (PathL × PathL) → SaveCtx → Except GErr SaveCtx
  | [], ctx => .ok ctx
  | mr :: rest, ctx =>
      match ctx.loaded.lookup mr.1 with
      | none => .error (.assertionError "loaded Manifest disappeared")
      | some m =>
          match save_entries_scan probe device hashes force mr.1 mr.2
              ctx.renamed m.entries ctx.updated ctx.fixed with
          | .error err => .error err
          | .ok (entries2, updated2, fixed2) =>
              let m2 : ManifestF := { entries := entries2 }
              let loaded2 := assocSet ctx.loaded mr.1 m2
              if force ∨ mr.1 ∈ updated2 then
                let unc := uncSize mr.1 m2
                let ctx2 :=
                  match watermark with
                  | none =>
                      { loaded := loaded2, updated := updated2,
                        fixed := fixed2, renamed := ctx.renamed }
                  | some w =>
                      let compr :=
                        get_compressed_suffix_from_filename (pathLastSegment mr.1)
                      let isCompr := compr.isSome
                      let isLarge := w ≤ unc
                      if isCompr != isLarge then
                        let newMpath :=
                          if isLarge then pathLastAddSuffix mr.1 fmt
                          else pathLastDropChars mr.1 ((compr.getD "").length + 1)
                        { loaded := assocErase (assocSet loaded2 newMpath m2) mr.1,
                          updated := updated2, fixed := fixed2,
                          renamed := ctx.renamed ++ [(mr.1, newMpath)] }
                      else
                        { loaded := loaded2, updated := updated2,
                          fixed := fixed2, renamed := ctx.renamed }
                save_manifests_steps probe device hashes force watermark fmt
                  uncSize rest ctx2
              else
                save_manifests_steps probe device hashes force watermark fmt
                  uncSize rest
                  { loaded := loaded2, updated := updated2,
                    fixed := fixed2, renamed := ctx.renamed }

/-- The `save_manifests` method: optional force ensure-load, the combined
refresh-and-save loop, then discarding fixed, renamed and top-level paths
from `updated_manifests`; a non-empty residual is the source's final
`assert`, embedded as the `residualDirty` error. -/
def save_manifests (fs : DiskFS) (uncSize : PathL → ManifestF → Nat)
    (st : LoaderState) (hashes0 selfHashes : Option (List String))
    (force : Bool) (watermark : Option Nat) (fmt : String) (fuel : Nat) :
    Except GErr LoaderState :=
  let hashes := match hashes0 with
    | some h => some h
    | none => selfHashes
  match (if force then load_manifests_for_path fs [] true fuel st
         else .ok st) with
  | .error err => .error err
  | .ok st2 =>
      let snapshot := (iter_manifests_for_path st2 [] true).map fun kdm =>
        (kdm.1, kdm.2.1)
      match save_manifests_steps fs.probe st2.device hashes force watermark
          fmt uncSize snapshot
          { loaded := st2.loaded, updated := st2.updated,
            fixed := [], renamed := [] } with
      | .error err => .error err
      | .ok ctx =>
          let renamedKeys := ctx.renamed.map Prod.fst
          let residual := ctx.updated.filter fun q =>
            q ∉ ctx.fixed ∧ q ∉ renamedKeys ∧ q ∉ top_manifest_paths
          if residual.isEmpty then
            .ok { loaded := ctx.loaded, updated := [], device := st2.device }
          else .error (.residualDirty residual)

/-! ## Concrete fixtures used by the counterexamples and witnesses -/

/-- A probe of a nonexistent path. -/
def fpAbsent : FileProbe :=
  { fexists := false, opened := false, st_dev := 0, ftype := .unknownKind,
    st_size := 0, contentSize := 0, hashOf := fun _ => "" }

/-- A probe of an existing regular file on device `dev` with size `sz`
whose every digest reads `dig`. -/
def fpReg (dev sz : Nat) (dig : String) : FileProbe :=
  { fexists := true, opened := true, st_dev := dev, ftype := .regularFile,
    st_size := sz, contentSize := sz, hashOf := fun _ => dig }

/-- An `IGNORE sub` entry. -/
def ignoreEntrySub : MEntry :=
  { tag := .IGNORE, path := ["sub"], size := 0, checksums := [] }

/-- A `DATA x` entry as it would appear in `sub/Manifest`. -/
def dataEntryX : MEntry :=
  { tag := .DATA, path := ["x"], size := 1, checksums := [("SHA256", "aa")] }

/-- A `DATA f` entry at the tree root. -/
def dataEntryF : MEntry :=
  { tag := .DATA, path := ["f"], size := 3, checksums := [("SHA256", "z")] }

/-- Forest for C1: the root Manifest carries `IGNORE sub`, and the deeper
`sub/Manifest` carries `DATA x` for the same subtree. -/
def stC1 : LoaderState :=
  { loaded := [(["Manifest"], { entries := [ignoreEntrySub] }),
               (["sub", "Manifest"], { entries := [dataEntryX] })],
    updated := [], device := 1 }

/-- Forest for C3: just a top-level Manifest on device 1. -/
def stC3 : LoaderState :=
  { loaded := [(["Manifest"], { entries := [] })], updated := [], device := 1 }

/-- Entries of the C4 forest: the top-level Manifest references
`Manifest.files` in the same directory, which references `sub/Manifest`,
which lists `sub/x`. -/
def mTop4 : ManifestF :=
  { entries := [{ tag := .MANIFEST, path := ["Manifest.files"], size := 10,
                  checksums := [("SHA256", "x")] }] }

/-- The same-directory second Manifest of the C4 forest. -/
def mFiles4 : ManifestF :=
  { entries := [{ tag := .MANIFEST, path := ["sub", "Manifest"], size := 10,
                  checksums := [("SHA256", "y")] }] }

/-- The sub-Manifest of the C4 forest. -/
def mSub4 : ManifestF :=
  { entries := [{ tag := .DATA, path := ["x"], size := 3,
                  checksums := [("SHA256", "z")] }] }

/-- The loaded C4 forest in constructor-then-on-demand insertion order. -/
def st4 : LoaderState :=
  { loaded := [(["Manifest"], mTop4), (["Manifest.files"], mFiles4),
               (["sub", "Manifest"], mSub4)],
    updated := [], device := 1 }

/-- Filesystem for C4: every path is a regular file of size 3 on device 1
whose digests read `z`; no further Manifests are discoverable. -/
def fs4 : DiskFS :=
  { probe := fun _ => fpReg 1 3 "z",
    manifestAt := fun _ => none,
    dirDev := fun _ => 1 }

/-- The C4 forest after `update_entry_for_path` on `sub/x`: only
`sub/Manifest` is dirty. -/
def st4b : LoaderState :=
  { loaded := st4.loaded, updated := [["sub", "Manifest"]], device := 1 }

/-- Top-level Manifest content for C5: one `MANIFEST a/Manifest` entry. -/
def mA5 : ManifestF :=
  { entries := [{ tag := .MANIFEST, path := ["a", "Manifest"], size := 5,
                  checksums := [("SHA256", "h")] }] }

/-- Sub-Manifest content for C5: one `DATA y` entry. -/
def mB5 : ManifestF :=
  { entries := [{ tag := .DATA, path := ["y"], size := 5,
                  checksums := [("SHA256", "h")] }] }

/-- Filesystem for C5: `a/Manifest` is present on device 1 and parses to
`mB5`; every file is a regular size-5 file whose digests read `h`. -/
def fs5 : DiskFS :=
  { probe := fun _ => fpReg 1 5 "h",
    manifestAt := fun p => if p = ["a", "Manifest"] then some (mB5, 1) else none,
    dirDev := fun _ => 1 }

/-- The C5 start state: only the top-level Manifest is loaded. -/
def st5 : LoaderState :=
  { loaded := [(["Manifest"], mA5)], updated := [], device := 1 }

/-- Entries for C6: same path, same size, disjoint hash sets. -/
def e6a : MEntry :=
  { tag := .DATA, path := ["f"], size := 3, checksums := [("SHA256", "aa")] }

/-- Second C6 entry. -/
def e6b : MEntry :=
  { tag := .DATA, path := ["f"], size := 3, checksums := [("BLAKE2B", "bb")] }

/-- The composed entry map C5's run produces. -/
def d5 : List (PathL × MEntry) :=
  [(["a", "y"], { tag := .DATA, path := ["y"], size := 5,
                  checksums := [("SHA256", "h")] }),
   (["a", "Manifest"], { tag := .MANIFEST, path := ["a", "Manifest"],
                         size := 5, checksums := [("SHA256", "h")] })]

/-- The forest state after C5's run: both Manifests loaded. -/
def st5b : LoaderState :=
  { loaded := [(["Manifest"], mA5), (["a", "Manifest"], mB5)],
    updated := [], device := 1 }

/-- Forest for C9: a root Manifest listing `DATA f`, device 1. -/
def st9 : LoaderState :=
  { loaded := [(["Manifest"], { entries := [dataEntryF] })],
    updated := [], device := 1 }

/-- Filesystem for C9: `f` exists, verifies, but sits on device 2. -/
def fs9 : DiskFS :=
  { probe := fun _ => fpReg 2 3 "z",
    manifestAt := fun _ => none,
    dirDev := fun _ => 2 }

/-- Whether a result is the `ManifestCrossDevice` hard error. -/
def isCrossDeviceError {α : Type} : Except GErr α → Bool
  | .error (.manifestCrossDevice _) => true
  | _ => false

/-! ## Helper lemmas -/

/-- The per-hash loop of `verify_path` never emits an existence item. -/
theorem verify_path_hash_diffs_no_exists (en : MEntry) (fp : FileProbe)
    (L : List String) (a b : Bool) :
    DiffItem.dExists a b ∉ verify_path_hash_diffs en fp L := by
  induction L with
  | nil => simp [verify_path_hash_diffs]
  | cons ek t ih =>
      simp only [verify_path_hash_diffs]
      cases en.checksums.lookup ek with
      | none => exact ih
      | some exp =>
          by_cases hb : (fp.hashOf ek != exp) = true
          · simp only [hb, if_true, List.mem_cons]
            rintro (h | h)
            · exact DiffItem.noConfusion h
            · exact ih h
          · simp only [hb, if_false]
            exact ih

/-! ## C10 -/

/-- C10: `verify_path` called on a path that does not exist on the
filesystem with entry `None` returns `(True, [])`: a nonexistent path with
no covering Manifest entry verifies successfully rather than failing as a
stray file. -/
theorem C10_verify_path_absent_none_ok (path : PathL) (dev : Option Nat)
    (fp : FileProbe) (h : fp.fexists = false) :
    verify_path path none dev fp = .ok (true, []) := by
  simp [verify_path, h]

/-- C10 witness: a concrete nonexistent-path probe. -/
theorem C10_witness :
    fpAbsent.fexists = false ∧
      verify_path ["a"] none none fpAbsent = .ok (true, []) :=
  ⟨rfl, C10_verify_path_absent_none_ok ["a"] none fpAbsent rfl⟩

/-! ## C7 -/

/-- C7 counterexample: the claim quantifies over every entry, but an
`IGNORE` entry short-circuits `verify_path` before the existence check.
Here the entry is neither `None` nor `OPTIONAL`, so the claim expects the
file to exist; the file does not exist, yet `verify_path` returns
`(True, [])` instead of the claimed
`(False, [('__exists__', True, False)])`. -/
theorem C7_counterexample :
    ignoreEntrySub.tag ≠ Tag.OPTIONAL ∧
    fpAbsent.fexists = false ∧
    verify_path ["sub", "f"] (some ignoreEntrySub) none fpAbsent =
      .ok (true, []) ∧
    Except.ok (ε := GErr) (true, ([] : List DiffItem)) ≠
      .ok (false, [DiffItem.dExists true false]) := by
  refine ⟨by decide, rfl, rfl, by decide⟩

/-- C7 (amended: restricted to non-`IGNORE` entries, which return success
before the existence check): `verify_path` expects the file to exist iff
the entry is neither missing nor `OPTIONAL`; on an existence mismatch it
returns exactly `(False, [('__exists__', expected, actual)])` with no
further check, when existence agrees and the file is absent it returns
`(True, [])`, and when existence agrees no `__exists__` item can appear in
any returned difference list. -/
theorem C7_verify_path_existence (path : PathL) (e : Option MEntry)
    (dev : Option Nat) (fp : FileProbe)
    (hIgn : ∀ en, e = some en → en.tag ≠ Tag.IGNORE) :
    (fp.fexists ≠ verify_path_expect_exist e →
       verify_path path e dev fp =
         .ok (false, [.dExists (verify_path_expect_exist e) fp.fexists])) ∧
    (fp.fexists = verify_path_expect_exist e → fp.fexists = false →
       verify_path path e dev fp = .ok (true, [])) ∧
    (∀ r, verify_path path e dev fp = .ok r →
       fp.fexists = verify_path_expect_exist e →
       ∀ a b, DiffItem.dExists a b ∉ r.2) := by
  cases e with
  | none =>
      refine ⟨?_, ?_, ?_⟩
      · intro hne
        have hx : fp.fexists = true := by
          cases hfe : fp.fexists
          · exact absurd (by simp [verify_path_expect_exist, hfe]) hne
          · rfl
        simp [verify_path, verify_path_expect_exist, hx]
      · intro _ hfe
        simp [verify_path, hfe]
      · intro r hr heq a b
        have hfe : fp.fexists = false := by
          simpa [verify_path_expect_exist] using heq
        simp [verify_path, hfe] at hr
        simp [← hr]
  | some en =>
      have hni : en.tag ≠ Tag.IGNORE := hIgn en rfl
      refine ⟨?_, ?_, ?_⟩
      · intro hne
        have hb : (fp.fexists != (en.tag != Tag.OPTIONAL)) = true := by
          simpa [verify_path_expect_exist, bne_iff_ne] using hne
        simp [verify_path, hni, hb, verify_path_expect_exist]
      · intro heq hfe
        have hopt : en.tag = Tag.OPTIONAL := by
          simp only [verify_path_expect_exist] at heq
          rw [hfe] at heq
          simpa using heq.symm
        simp [verify_path, hni, hfe, hopt]
      · intro r hr heq a b
        have hb : (fp.fexists != (en.tag != Tag.OPTIONAL)) = false := by
          simp only [verify_path_expect_exist] at heq
          rw [heq, bne_self_eq_false]
        simp only [verify_path, hni, if_neg hni, hb, Bool.false_eq_true,
          if_false] at hr
        cases hfe : fp.fexists with
        | false =>
            rw [hfe] at hr
            simp at hr
            simp [← hr]
        | true =>
            rw [hfe] at hr
            simp only [Bool.not_true, Bool.false_eq_true, if_false] at hr
            cases hdev : (match dev with
              | some d => fp.st_dev != d
              | none => false) with
            | false =>
              rw [hdev] at hr
              simp only [Bool.false_eq_true, if_false] at hr
              by_cases hty : (!fp.opened || fp.ftype != FType.regularFile) = true
              · rw [if_pos hty] at hr
                simp at hr
                simp [← hr]
              · rw [if_neg hty] at hr
                by_cases hsz : fp.st_size ≠ 0 ∧ fp.st_size ≠ en.size
                · rw [if_pos hsz] at hr
                  simp at hr
                  simp [← hr]
                · rw [if_neg hsz] at hr
                  by_cases hemp : ((if fp.contentSize ≠ en.size then
                      [DiffItem.dSize en.size fp.contentSize] else []) ++
                      verify_path_hash_diffs en fp
                        (stableSortBy strLe (en.checksums.map Prod.fst))).isEmpty = true
                  · rw [if_pos hemp] at hr
                    simp at hr
                    simp [← hr]
                  · rw [if_neg hemp] at hr
                    simp at hr
                    rw [← hr]
                    simp only [List.mem_append]
                    rintro (hm | hm)
                    · by_cases hcs : fp.contentSize = en.size
                      · simp [hcs] at hm
                      · simp [hcs] at hm
                    · exact verify_path_hash_diffs_no_exists en fp _ a b hm
            | true =>
              rw [hdev] at hr
              simp at hr

/-- C7 witness: a present `DATA` entry with an absent file takes the
existence-mismatch branch. -/
theorem C7_witness :
    fpAbsent.fexists ≠ verify_path_expect_exist (some dataEntryF) ∧
    verify_path ["f"] (some dataEntryF) none fpAbsent =
      .ok (false, [.dExists (verify_path_expect_exist (some dataEntryF))
        fpAbsent.fexists]) :=
  ⟨by decide,
   (C7_verify_path_existence ["f"] (some dataEntryF) none fpAbsent
      (fun en h => by cases h; decide)).1 (by decide)⟩

/-! ## C2 -/

/-- C2 counterexample: the claim quantifies over every entry, but for an
`IGNORE` entry `verify_path` returns success before the device check, so
an existing file on a foreign device does not raise
`ManifestCrossDevice`. -/
theorem C2_counterexample :
    (fpReg 2 3 "z").fexists = true ∧
    (fpReg 2 3 "z").st_dev ≠ 1 ∧
    verify_path ["sub", "f"] (some ignoreEntrySub) (some 1) (fpReg 2 3 "z") =
      .ok (true, []) := by
  refine ⟨rfl, by decide, rfl⟩

/-- C2 (amended: restricted to entries that reach the device check, i.e.
the entry is not `IGNORE` and actual existence matches expected existence
— for a present file that means a non-`OPTIONAL` entry; `IGNORE` entries
and existence mismatches return before the device check): `verify_path`
with a non-`None` expected device raises `ManifestCrossDevice` for a file
on a differing device, regardless of matching sizes or hashes, and the
`assert_directory_verifies` walk raises `ManifestCrossDevice` for any
unlisted directory on a foreign device. -/
theorem C2_cross_device_hard_error (path : PathL) (en : MEntry) (dev : Nat)
    (fp : FileProbe) (relpath : PathL) (d : String)
    (entryDict : List (PathL × MEntry)) (dirDev : Nat)
    (h1 : en.tag ≠ Tag.IGNORE) (h2 : en.tag ≠ Tag.OPTIONAL)
    (h3 : fp.fexists = true) (h4 : fp.st_dev ≠ dev)
    (h5 : strStartsWithDot d = false)
    (h6 : entryDict.lookup (relpath ++ [d]) = none) (h7 : dirDev ≠ dev) :
    verify_path path (some en) (some dev) fp =
      .error (.manifestCrossDevice path) ∧
    assert_directory_verifies_dir_step dev relpath d entryDict dirDev =
      .error (.manifestCrossDevice (relpath ++ [d])) := by
  constructor
  · have hb : (fp.fexists != (en.tag != Tag.OPTIONAL)) = false := by
      simp [h2, h3]
    simp [verify_path, h1, h2, hb, h3, h4]
  · simp [assert_directory_verifies_dir_step, h5, h6, h7]

/-- C2 witness: a clean `DATA` entry whose file sits on device 2 while the
expected device is 1, and a stray directory on device 2. -/
theorem C2_witness :
    dataEntryF.tag ≠ Tag.IGNORE ∧ dataEntryF.tag ≠ Tag.OPTIONAL ∧
    (fpReg 2 3 "z").fexists = true ∧ (fpReg 2 3 "z").st_dev ≠ 1 ∧
    verify_path ["f"] (some dataEntryF) (some 1) (fpReg 2 3 "z") =
      .error (.manifestCrossDevice ["f"]) ∧
    assert_directory_verifies_dir_step 1 [] "sub" [] 2 =
      .error (.manifestCrossDevice ([] ++ ["sub"])) := by
  have h := C2_cross_device_hard_error ["f"] dataEntryF 1 (fpReg 2 3 "z")
    [] "sub" [] 2 (by decide) (by decide) rfl (by decide) (by decide) rfl
    (by decide)
  exact ⟨by decide, by decide, rfl, by decide, h.1, h.2⟩

/-! ## C3 -/

/-- C3 counterexample: loading a sub-Manifest that resides on device 2
overwrites `manifest_device`, which was 1 from the top-level Manifest, so
the device id does not stay pinned to the top-level Manifest. -/
theorem C3_counterexample :
    stC3.device = 1 ∧
    load_manifest stC3 ["sub", "Manifest"] none fpAbsent
        (.present { entries := [] } 2) false =
      .ok ({ entries := [] },
        { loaded := [(["Manifest"], { entries := [] }),
                     (["sub", "Manifest"], { entries := [] })],
          updated := [], device := 2 }) :=
  ⟨rfl, rfl⟩

/-- C3 (amended: `manifest_device` is overwritten by every successful
`load_manifest` with the `st_dev` of the Manifest file just loaded —
whatever the previous value was — so loading a sub-Manifest on a
different device changes it rather than leaving it unchanged). -/
theorem C3_device_tracks_last_loaded (st : LoaderState) (relpath : PathL)
    (ve : Option MEntry) (fp : FileProbe) (m : ManifestF) (dev : Nat)
    (ac : Bool) (res : ManifestF × LoaderState)
    (h : load_manifest st relpath ve fp (.present m dev) ac = .ok res) :
    res.2.device = dev := by
  cases ve with
  | none =>
      simp only [load_manifest, load_manifest_open] at h
      cases h
      rfl
  | some ve =>
      simp only [load_manifest] at h
      cases hv : verify_path relpath (some ve) none fp with
      | error err => rw [hv] at h; exact Except.noConfusion h
      | ok rd =>
          obtain ⟨ret, diff⟩ := rd
          rw [hv] at h
          cases ret with
          | false => simp at h
          | true =>
              simp only [load_manifest_open, Bool.not_true,
                Bool.false_eq_true, if_false, Except.ok.injEq] at h
              cases h
              rfl

/-- C3 witness: the amended rule evaluated at the concrete load of
`sub/Manifest` from device 2. -/
theorem C3_witness :
    (({ entries := [] } : ManifestF),
     ({ loaded := [(["Manifest"], { entries := [] }),
                   (["sub", "Manifest"], { entries := [] })],
        updated := [], device := 2 } : LoaderState)).2.device = 2 :=
  C3_device_tracks_last_loaded stC3 ["sub", "Manifest"] none fpAbsent
    { entries := [] } 2 false _ rfl

/-! ## C8 -/

/-- A recognized compression suffix is one of the four supported ones. -/
theorem get_compressed_suffix_cases (path : String) (c : String)
    (h : get_compressed_suffix_from_filename path = some c) :
    c = "gz" ∨ c = "bz2" ∨ c = "lzma" ∨ c = "xz" := by
  simp only [get_compressed_suffix_from_filename] at h
  split at h
  next hcond =>
    rcases hcond with h1 | h1 | h1 | h1 <;>
      rw [h1] at h <;> simp only [Option.some.injEq] at h <;>
        rw [← h] <;> simp
  next => exact Option.noConfusion h

/-- C8 counterexample: the path `foo.txt` has the final extension `.txt`,
which is present and not among the supported ones, yet opening it through
the compression layer succeeds, returning the directly opened file instead
of failing with `UnsupportedCompression`. -/
theorem C8_counterexample :
    splitext "foo.txt" = ("foo", ".txt") ∧
    get_compressed_suffix_from_filename "foo.txt" = none ∧
    open_potentially_compressed_path true true "foo.txt" "r" false =
      .ok (.raw "foo.txt" "r") := by
  refine ⟨by decide, by decide, rfl⟩

/-- C8 (amended: a path whose final extension is unrecognized — or absent —
is treated as uncompressed and opened directly; within
`open_potentially_compressed_path` the `UnsupportedCompression` failure can
only arise for a recognized suffix whose codec module is unavailable). -/
theorem C8_unknown_suffix_uncompressed (bz lz : Bool) (path mode : String)
    (textOpts : Bool) :
    (get_compressed_suffix_from_filename path = none →
       open_potentially_compressed_path bz lz path mode textOpts =
         .ok (.raw path mode)) ∧
    (∀ s, open_potentially_compressed_path bz lz path mode textOpts =
         .error (.unsupportedCompression s) →
       (s = "bz2" ∧ bz = false) ∨ ((s = "lzma" ∨ s = "xz") ∧ lz = false)) := by
  constructor
  · intro h
    simp [open_potentially_compressed_path, h]
  · intro s hs
    unfold open_potentially_compressed_path at hs
    cases hget : get_compressed_suffix_from_filename path with
    | none => rw [hget] at hs; exact Except.noConfusion hs
    | some c =>
        rw [hget] at hs
        rcases get_compressed_suffix_cases path c hget with hc | hc | hc | hc <;>
          subst hc
        · simp only [open_compressed_file] at hs
          simp at hs
          split at hs <;> exact Except.noConfusion hs
        · cases bz with
          | true =>
              simp [open_compressed_file] at hs
              split at hs <;> exact Except.noConfusion hs
          | false =>
              simp [open_compressed_file] at hs
              exact Or.inl ⟨hs.symm, rfl⟩
        · cases lz with
          | true =>
              simp [open_compressed_file] at hs
              split at hs <;> exact Except.noConfusion hs
          | false =>
              simp [open_compressed_file] at hs
              exact Or.inr ⟨Or.inl hs.symm, rfl⟩
        · cases lz with
          | true =>
              simp [open_compressed_file] at hs
              split at hs <;> exact Except.noConfusion hs
          | false =>
              simp [open_compressed_file] at hs
              exact Or.inr ⟨Or.inr hs.symm, rfl⟩

/-- C8 witness: an unrecognized extension evaluated concretely. -/
theorem C8_witness :
    get_compressed_suffix_from_filename "foo.bar" = none ∧
    open_potentially_compressed_path true true "foo.bar" "r" false =
      .ok (.raw "foo.bar" "r") :=
  ⟨by decide,
   (C8_unknown_suffix_uncompressed true true "foo.bar" "r" false).1 (by decide)⟩

/-! ## C9 -/

/-- Calling `verify_path` with no expected device always returns a result
(no exception). -/
theorem verify_path_none_isOk (path : PathL) (e : Option MEntry)
    (fp : FileProbe) : (verify_path path e none fp).isOk = true := by
  cases e with
  | none =>
      simp only [verify_path]
      split <;> rfl
  | some en =>
      simp only [verify_path]
      split
      · rfl
      · split
        · rfl
        · split
          · rfl
          · split
            · next hdev => simp at hdev
            · repeat' split
              all_goals rfl

/-- The open phase of `load_manifest` never raises `ManifestCrossDevice`. -/
theorem load_manifest_open_not_crossdev (st : LoaderState) (relpath : PathL)
    (fsm : FsManifestFile) (ac : Bool) (p : PathL) :
    load_manifest_open st relpath fsm ac ≠ .error (.manifestCrossDevice p) := by
  cases fsm with
  | present m dev => simp [load_manifest_open]
  | absent pd =>
      simp only [load_manifest_open]
      split <;> simp

/-- `load_manifest` against the filesystem oracle never raises
`ManifestCrossDevice`: its verification step passes no expected device. -/
theorem load_manifest_fs_not_crossdev (fs : DiskFS) (st : LoaderState)
    (relpath : PathL) (ve : Option MEntry) (ac : Bool) (p : PathL) :
    load_manifest_fs fs st relpath ve ac ≠ .error (.manifestCrossDevice p) := by
  intro h
  unfold load_manifest_fs load_manifest at h
  cases ve with
  | none => exact load_manifest_open_not_crossdev st relpath _ ac p h
  | some ve =>
      dsimp only at h
      cases hv : verify_path relpath (some ve) none (fs.probe relpath) with
      | error err =>
          have := verify_path_none_isOk relpath (some ve) (fs.probe relpath)
          rw [hv] at this
          exact Bool.noConfusion this
      | ok rd =>
          obtain ⟨ret, diff⟩ := rd
          rw [hv] at h
          cases ret with
          | false => simp at h
          | true =>
              simp only [Bool.not_true, Bool.false_eq_true, if_false] at h
              exact load_manifest_open_not_crossdev st relpath _ ac p h

/-- Loading a batch of referenced Manifests never raises
`ManifestCrossDevice`. -/
theorem load_manifest_list_not_crossdev (fs : DiskFS) :
    ∀ (L : List (PathL × MEntry)) (st : LoaderState) (p : PathL),
      load_manifest_list fs L st ≠ .error (.manifestCrossDevice p) := by
  intro L
  induction L with
  | nil => intro st p h; simp [load_manifest_list] at h
  | cons me rest ih =>
      intro st p h
      unfold load_manifest_list at h
      cases hl : load_manifest_fs fs st me.1 (some me.2) false with
      | error err =>
          rw [hl] at h
          cases h
          exact load_manifest_fs_not_crossdev fs st me.1 (some me.2) false p hl
      | ok mst =>
          rw [hl] at h
          exact ih mst.2 p h

/-- The `load_manifests_for_path` fixed-point loop never raises
`ManifestCrossDevice`. -/
theorem load_manifests_for_path_not_crossdev (fs : DiskFS) (path : PathL)
    (recursive : Bool) :
    ∀ (fuel : Nat) (st : LoaderState) (p : PathL),
      load_manifests_for_path fs path recursive fuel st ≠
        .error (.manifestCrossDevice p) := by
  intro fuel
  induction fuel with
  | zero => intro st p h; simp [load_manifests_for_path] at h
  | succ n ih =>
      intro st p h
      unfold load_manifests_for_path at h
      dsimp only at h
      split at h
      · exact Except.noConfusion h
      · cases hl : load_manifest_list fs
            (load_manifests_to_load st path recursive) st with
        | error err =>
            rw [hl] at h
            cases h
            exact load_manifest_list_not_crossdev fs _ st p hl
        | ok st2 =>
            rw [hl] at h
            exact ih st2 p h

/-- C9: the loader's `verify_path` method never raises
`ManifestCrossDevice` — it invokes the entry verifier with no expected
device, so a file on a foreign device still yields an `(ok, diff)` result
— while `assert_path_verifies`, which passes `manifest_device`, raises
`ManifestCrossDevice` on the very same forest and filesystem. -/
theorem C9_loader_verify_path_never_cross_device :
    (∀ (fs : DiskFS) (st : LoaderState) (relpath : PathL) (fuel : Nat),
       isCrossDeviceError (loader_verify_path fs st relpath fuel) = false) ∧
    assert_path_verifies fs9 st9 ["f"] 1 =
      .error (.manifestCrossDevice ["f"]) ∧
    loader_verify_path fs9 st9 ["f"] 1 = .ok (true, []) := by
  refine ⟨?_, rfl, rfl⟩
  intro fs st relpath fuel
  unfold loader_verify_path
  cases hl : load_manifests_for_path fs relpath false fuel st with
  | error err =>
      dsimp only
      cases err with
      | manifestCrossDevice p =>
          exact absurd hl (load_manifests_for_path_not_crossdev fs relpath
            false fuel st p)
      | _ => rfl
  | ok st2 =>
      dsimp only
      cases hv : verify_path relpath (find_path_entry st2 relpath) none
          (fs.probe relpath) with
      | error err =>
          have hok := verify_path_none_isOk relpath
            (find_path_entry st2 relpath) (fs.probe relpath)
          rw [hv] at hok
          exact Bool.noConfusion hok
      | ok rd => rfl

/-! ## C6 -/

/-- A successful lookup means the key occurs among the keys. -/
theorem mem_keys_of_lookup_eq_some {β : Type} :
    ∀ (l : List (String × β)) (a : String) (v : β),
      l.lookup a = some v → a ∈ l.map Prod.fst := by
  intro l
  induction l with
  | nil => intro a v h; simp [List.lookup] at h
  | cons kv t ih =>
      intro a v h
      obtain ⟨k, b⟩ := kv
      rw [List.lookup] at h
      by_cases hk : (a == k) = true
      · simp only [beq_iff_eq] at hk
        simp [hk]
      · rw [Bool.not_eq_true] at hk
        rw [hk] at h
        simp only [List.map_cons, List.mem_cons]
        exact Or.inr (ih a v h)

/-- Membership through stable insertion. -/
theorem mem_insStable {α : Type} (le : α → α → Bool) (x a : α) :
    ∀ l : List α, a ∈ insStable le x l ↔ a = x ∨ a ∈ l := by
  intro l
  induction l with
  | nil => simp [insStable]
  | cons y ys ih =>
      simp only [insStable]
      by_cases hle : le y x = true
      · rw [if_pos hle]
        simp only [List.mem_cons, ih]
        tauto
      · rw [if_neg hle]
        simp only [List.mem_cons]

/-- Membership through the stable sort. -/
theorem mem_stableSortBy {α : Type} (le : α → α → Bool) (a : α)
    (l : List α) : a ∈ stableSortBy le l ↔ a ∈ l := by
  suffices hgen : ∀ (l acc : List α),
      (a ∈ l.foldl (fun acc x => insStable le x acc) acc ↔ a ∈ acc ∨ a ∈ l) by
    have := hgen l []
    simpa [stableSortBy] using this
  intro l
  induction l with
  | nil => intro acc; simp
  | cons x xs ih =>
      intro acc
      simp only [List.foldl_cons, ih, mem_insStable, List.mem_cons]
      tauto

/-- The checksum loop reports incompatibility exactly when some processed
hash name is present on both sides with differing values. -/
theorem compat_loop_fst_false_iff (c1 c2 : List (String × String)) :
    ∀ L : List String,
      (verify_entry_compatibility_loop c1 c2 L).1 = false ↔
        ∃ h, h ∈ L ∧ (c1.lookup h).isSome = true ∧
          (c2.lookup h).isSome = true ∧ c1.lookup h ≠ c2.lookup h := by
  intro L
  induction L with
  | nil => simp [verify_entry_compatibility_loop]
  | cons hd t ih =>
      simp only [verify_entry_compatibility_loop]
      by_cases he : c1.lookup hd = c2.lookup hd
      · rw [if_pos he]
        rw [ih]
        constructor
        · rintro ⟨h, hm, h1, h2, hne⟩
          exact ⟨h, List.mem_cons_of_mem hd hm, h1, h2, hne⟩
        · rintro ⟨h, hm, h1, h2, hne⟩
          rcases List.mem_cons.1 hm with rfl | hm
          · exact absurd he hne
          · exact ⟨h, hm, h1, h2, hne⟩
      · rw [if_neg he]
        by_cases hb : ((c1.lookup hd).isSome && (c2.lookup hd).isSome) = true
        · rw [if_pos hb]
          simp only [Bool.and_eq_true] at hb
          constructor
          · intro _
            exact ⟨hd, List.mem_cons_self hd t, hb.1, hb.2, he⟩
          · intro _
            rfl
        · rw [if_neg hb]
          rw [ih]
          constructor
          · rintro ⟨h, hm, h1, h2, hne⟩
            exact ⟨h, List.mem_cons_of_mem hd hm, h1, h2, hne⟩
          · rintro ⟨h, hm, h1, h2, hne⟩
            rcases List.mem_cons.1 hm with rfl | hm
            · exact absurd (by rw [h1, h2]; rfl : ((c1.lookup h).isSome &&
                (c2.lookup h).isSome) = true) hb
            · exact ⟨h, hm, h1, h2, hne⟩

/-- Every processed hash name with differing values lands in the loop's
difference list. -/
theorem compat_loop_mem_diff (c1 c2 : List (String × String)) :
    ∀ (L : List String) (h : String), h ∈ L →
      c1.lookup h ≠ c2.lookup h →
      CompatDiff.cHash h (c1.lookup h) (c2.lookup h) ∈
        (verify_entry_compatibility_loop c1 c2 L).2 := by
  intro L
  induction L with
  | nil => intro h hm; simp at hm
  | cons hd t ih =>
      intro h hm hne
      simp only [verify_entry_compatibility_loop]
      rcases List.mem_cons.1 hm with rfl | hm
      · rw [if_neg hne]
        exact List.mem_cons_self _ _
      · by_cases he : c1.lookup hd = c2.lookup hd
        · rw [if_pos he]
          exact ih h hm hne
        · rw [if_neg he]
          exact List.mem_cons_of_mem _ (ih h hm hne)

/-- C6: for entries with compatible tags and equal sizes,
`verify_entry_compatibility` reports incompatibility exactly when some
hash name present in both entries carries differing (non-null) values; a
hash present on only one side does not break compatibility but is
reported in the difference list as an informational triple. -/
theorem C6_verify_entry_compatibility_hash_union (e1 e2 : MEntry)
    (hTag : e1.tag = e2.tag ∨
      (e1.tag ∈ COMPATIBLE_TAGS ∧ e2.tag ∈ COMPATIBLE_TAGS))
    (hSize : e1.size = e2.size) :
    ((verify_entry_compatibility e1 e2).1 = false ↔
       ∃ h v1 v2, e1.checksums.lookup h = some v1 ∧
         e2.checksums.lookup h = some v2 ∧ v1 ≠ v2) ∧
    (∀ h v, e1.checksums.lookup h = some v →
       e2.checksums.lookup h = none →
       CompatDiff.cHash h (some v) none ∈
         (verify_entry_compatibility e1 e2).2) ∧
    (∀ h v, e2.checksums.lookup h = some v →
       e1.checksums.lookup h = none →
       CompatDiff.cHash h none (some v) ∈
         (verify_entry_compatibility e1 e2).2) := by
  have hc1 : ¬ (e1.tag ≠ e2.tag ∧
      (e1.tag ∉ COMPATIBLE_TAGS ∨ e2.tag ∉ COMPATIBLE_TAGS)) := by
    rcases hTag with h | ⟨ha, hb⟩
    · rintro ⟨hne, _⟩; exact hne h
    · rintro ⟨_, hor⟩; rcases hor with hx | hx
      · exact hx ha
      · exact hx hb
  have hred : verify_entry_compatibility e1 e2 =
      verify_entry_compatibility_loop e1.checksums e2.checksums
        (stableSortBy strLe
          ((e1.checksums.map Prod.fst ++ e2.checksums.map Prod.fst).dedup)) := by
    unfold verify_entry_compatibility
    rw [if_neg hc1, if_neg (by simp [hSize])]
  have hmemL : ∀ h : String,
      (h ∈ e1.checksums.map Prod.fst ∨ h ∈ e2.checksums.map Prod.fst) →
      h ∈ stableSortBy strLe
        ((e1.checksums.map Prod.fst ++ e2.checksums.map Prod.fst).dedup) := by
    intro h hm
    rw [mem_stableSortBy, List.mem_dedup, List.mem_append]
    exact hm
  refine ⟨?_, ?_, ?_⟩
  · rw [hred, compat_loop_fst_false_iff]
    constructor
    · rintro ⟨h, _, h1, h2, hne⟩
      rcases Option.isSome_iff_exists.1 h1 with ⟨v1, hv1⟩
      rcases Option.isSome_iff_exists.1 h2 with ⟨v2, hv2⟩
      refine ⟨h, v1, v2, hv1, hv2, ?_⟩
      intro hv
      rw [hv1, hv2, hv] at hne
      exact hne rfl
    · rintro ⟨h, v1, v2, hv1, hv2, hne⟩
      refine ⟨h, hmemL h (Or.inl (mem_keys_of_lookup_eq_some _ h v1 hv1)),
        by rw [hv1]; rfl, by rw [hv2]; rfl, ?_⟩
      rw [hv1, hv2]
      intro hv
      exact hne (Option.some.injEq v1 v2 ▸ hv)
  · intro h v hv1 hv2
    rw [hred]
    have := compat_loop_mem_diff e1.checksums e2.checksums _ h
      (hmemL h (Or.inl (mem_keys_of_lookup_eq_some _ h v hv1)))
      (by rw [hv1, hv2]; exact fun hx => Option.noConfusion hx)
    rwa [hv1, hv2] at this
  · intro h v hv2 hv1
    rw [hred]
    have := compat_loop_mem_diff e1.checksums e2.checksums _ h
      (hmemL h (Or.inr (mem_keys_of_lookup_eq_some _ h v hv2)))
      (by rw [hv1, hv2]; exact fun hx => Option.noConfusion hx)
    rwa [hv1, hv2] at this

/-- C6 witness: disjoint hash sets are reported as informational triples
while the entries stay compatible. -/
theorem C6_witness :
    CompatDiff.cHash "SHA256" (some "aa") none ∈
      (verify_entry_compatibility e6a e6b).2 ∧
    CompatDiff.cHash "BLAKE2B" none (some "bb") ∈
      (verify_entry_compatibility e6a e6b).2 ∧
    (verify_entry_compatibility e6a e6b).1 = true :=
  ⟨(C6_verify_entry_compatibility_hash_union e6a e6b (by decide) rfl).2.1
      "SHA256" "aa" rfl rfl,
   (C6_verify_entry_compatibility_hash_union e6a e6b (by decide) rfl).2.2
      "BLAKE2B" "bb" rfl rfl,
   by decide⟩

/-! ## C1 -/

/-- Stable insertion keeps the list sorted. -/
theorem pairwise_insStable {α : Type} (le : α → α → Bool)
    (htrans : ∀ a b c, le a b = true → le b c = true → le a c = true)
    (htot : ∀ a b, le a b = true ∨ le b a = true) (x : α) :
    ∀ l, l.Pairwise (fun a b => le a b = true) →
      (insStable le x l).Pairwise (fun a b => le a b = true) := by
  intro l
  induction l with
  | nil => intro _; simp [insStable]
  | cons y ys ih =>
      intro hp
      rcases List.pairwise_cons.1 hp with ⟨hy, hys⟩
      simp only [insStable]
      by_cases hle : le y x = true
      · rw [if_pos hle]
        refine List.pairwise_cons.2 ⟨?_, ih hys⟩
        intro z hz
        rcases (mem_insStable le x z ys).1 hz with rfl | hz
        · exact hle
        · exact hy z hz
      · rw [if_neg hle]
        have hxy : le x y = true := by
          rcases htot x y with h | h
          · exact h
          · exact absurd h hle
        refine List.pairwise_cons.2 ⟨?_, hp⟩
        intro z hz
        rcases List.mem_cons.1 hz with rfl | hz
        · exact hxy
        · exact htrans x y z hxy (hy z hz)

/-- The stable sort produces a sorted list. -/
theorem pairwise_stableSortBy {α : Type} (le : α → α → Bool)
    (htrans : ∀ a b c, le a b = true → le b c = true → le a c = true)
    (htot : ∀ a b, le a b = true ∨ le b a = true) (l : List α) :
    (stableSortBy le l).Pairwise (fun a b => le a b = true) := by
  suffices hgen : ∀ (l acc : List α),
      acc.Pairwise (fun a b => le a b = true) →
      (l.foldl (fun acc x => insStable le x acc) acc).Pairwise
        (fun a b => le a b = true) by
    exact hgen l [] (by simp)
  intro l
  induction l with
  | nil => intro acc h; simpa using h
  | cons x xs ih =>
      intro acc h
      simp only [List.foldl_cons]
      exact ih (insStable le x acc) (pairwise_insStable le htrans htot x acc h)

/-- The inner entry loop of `find_path_entry` is a `find?` over the
directory-tagged entry list. -/
theorem find_path_entry_entries_eq (q d : PathL) :
    ∀ es : List MEntry,
      ((es.map fun e => (d, e)).find? fun de =>
          entry_matches_path q de.1 de.2) =
        (find_path_entry_entries q d es).map fun e => (d, e) := by
  intro es
  induction es with
  | nil => simp [find_path_entry_entries]
  | cons e t ih =>
      simp only [List.map_cons, List.find?_cons, find_path_entry_entries]
      by_cases hm : entry_matches_path q d e = true
      · simp [hm]
      · rw [Bool.not_eq_true] at hm
        simp [hm, ih]

/-- The nested loops of `find_path_entry` compute the first match of the
deepest-first flattening. -/
theorem find_path_entry_manifests_eq (q : PathL) :
    ∀ L : List (PathL × PathL × ManifestF),
      (((L.flatMap fun kdm => kdm.2.2.entries.map fun e => (kdm.2.1, e)).find?
          fun de => entry_matches_path q de.1 de.2).map Prod.snd) =
        find_path_entry_manifests q L := by
  intro L
  induction L with
  | nil => simp [find_path_entry_manifests]
  | cons kdm rest ih =>
      rw [List.flatMap_cons, List.find?_append]
      simp only [find_path_entry_manifests]
      rw [find_path_entry_entries_eq]
      cases find_path_entry_entries q kdm.2.1 kdm.2.2.entries with
      | none => simpa using ih
      | some e => simp

/-- C1 (amended: `find_path_entry` iterates the applicable Manifests
deepest-first and, in one pass, returns the first entry that either is an
`IGNORE` whose composed directory covers the path or is a
non-`DIST`/non-`TIMESTAMP` entry whose composed path equals the path; an
`IGNORE` at an ancestor directory does NOT take precedence over a matching
entry of a deeper Manifest — the deeper Manifest is scanned first). -/
theorem C1_find_path_entry_first_match (st : LoaderState) (path : PathL) :
    find_path_entry st path = find_path_entry_spec st path ∧
    (iter_manifests_for_path st path false).Pairwise
      (fun a b => b.2.1.length ≤ a.2.1.length) := by
  constructor
  · unfold find_path_entry find_path_entry_spec
    exact (find_path_entry_manifests_eq path _).symm
  · have hp := pairwise_stableSortBy
      (fun a b : PathL × PathL × ManifestF =>
        decide (b.2.1.length ≤ a.2.1.length))
      (fun a b c hab hbc => by
        simp only [decide_eq_true_eq] at hab hbc ⊢
        exact Nat.le_trans hbc hab)
      (fun a b => by
        simp only [decide_eq_true_eq]
        exact Nat.le_total b.2.1.length a.2.1.length)
      (iter_unordered_manifests_for_path st path false)
    exact List.Pairwise.imp (fun h => by simpa using h) hp

/-- C1 counterexample: in a forest where the root Manifest holds
`IGNORE sub` (whose directory covers `sub/x`) and the deeper `sub/Manifest`
holds `DATA x`, `find_path_entry` returns the `DATA` entry of the deeper
Manifest, not the ancestor `IGNORE` the claim gives precedence to. -/
theorem C1_counterexample :
    entry_matches_path ["sub", "x"] [] ignoreEntrySub = true ∧
    find_path_entry stC1 ["sub", "x"] = some dataEntryX ∧
    some dataEntryX ≠ some ignoreEntrySub := by
  refine ⟨rfl, by decide, by decide⟩

/-! ## C5 -/

/-- When the ensure-load loop returns, the resulting state is a fixed
point: its `to_load` batch is empty. -/
theorem load_loop_ok_to_load_empty (fs : DiskFS) (path : PathL)
    (recursive : Bool) :
    ∀ (fuel : Nat) (st st2 : LoaderState),
      load_manifests_for_path fs path recursive fuel st = .ok st2 →
      load_manifests_to_load st2 path recursive = [] := by
  intro fuel
  induction fuel with
  | zero => intro st st2 h; simp [load_manifests_for_path] at h
  | succ n ih =>
      intro st st2 h
      unfold load_manifests_for_path at h
      dsimp only at h
      split at h
      · next hemp =>
          cases h
          exact List.isEmpty_iff.1 hemp
      · next hemp =>
          cases hl : load_manifest_list fs
              (load_manifests_to_load st path recursive) st with
          | error err => rw [hl] at h; exact Except.noConfusion h
          | ok st3 => rw [hl] at h; exact ih st3 st2 h

/-- C5: `get_file_entry_dict` is idempotent — a successful call returns a
forest state that is a fixed point of its own ensure-load, so calling it
again with the same `path` and `only_types` arguments yields the identical
path-to-entry map (and the identical state). -/
theorem C5_get_file_entry_dict_idempotent (fs : DiskFS) (st : LoaderState)
    (path : PathL) (onlyTypes : Option (List Tag)) (fuel : Nat)
    (d : List (PathL × MEntry)) (st2 : LoaderState)
    (h : get_file_entry_dict fs st path onlyTypes fuel = .ok (d, st2)) :
    ∀ n : Nat,
      get_file_entry_dict fs st2 path onlyTypes (n + 1) = .ok (d, st2) := by
  intro n
  unfold get_file_entry_dict at h ⊢
  cases hl : load_manifests_for_path fs path true fuel st with
  | error err => rw [hl] at h; exact absurd h (by simp)
  | ok st3 =>
      rw [hl] at h
      dsimp only at h
      cases hd : get_file_entry_dict_pure st3 path onlyTypes with
      | error err => rw [hd] at h; exact absurd h (by simp)
      | ok dd =>
          rw [hd] at h
          simp only [Except.ok.injEq, Prod.mk.injEq] at h
          obtain ⟨rfl, rfl⟩ := h
          have hempty := load_loop_ok_to_load_empty fs path true fuel st st3 hl
          have hstep : load_manifests_for_path fs path true (n + 1) st3 =
              .ok st3 := by
            unfold load_manifests_for_path
            dsimp only
            rw [hempty]
            rfl
          rw [hstep]
          dsimp only
          rw [hd]

/-- C5 witness: a concrete two-Manifest forest run twice. -/
theorem C5_witness :
    get_file_entry_dict fs5 st5 [] none 3 = .ok (d5, st5b) ∧
    get_file_entry_dict fs5 st5b [] none 1 = .ok (d5, st5b) :=
  ⟨rfl, C5_get_file_entry_dict_idempotent fs5 st5 [] none 3 d5 st5b rfl 0⟩

/-! ## C4 -/

/-- C4: a single `update_entry_for_path` on `sub/x` followed by
`save_manifests` makes the source's final residual-dirty `assert` fire.
The forest is `Manifest` → `Manifest.files` (same directory, so equal
depth) → `sub/Manifest`; the update dirties `sub/Manifest` only.  In the
save loop the top-level `Manifest` is processed before its same-depth
sibling `Manifest.files` (stable sort keeps dict insertion order on ties),
at which time `Manifest.files` is not yet dirty, so the top-level
`MANIFEST Manifest.files` entry is skipped; `Manifest.files` becomes dirty
only afterwards, when its own `MANIFEST sub/Manifest` entry is refreshed,
and nothing ever adds it to `fixed_manifests`.  The final set difference
leaves `Manifest.files` in `updated_manifests` and the assertion raises
`AssertionError` instead of leaving the dirty set empty. -/
theorem C4_save_manifests_assert_fires :
    update_entry_for_path fs4 st4 ["sub", "x"] .DATA (some ["SHA256"])
        none 1 = .ok st4b ∧
    st4b.updated = [["sub", "Manifest"]] ∧
    save_manifests fs4 (fun _ _ => 10) st4b none none false none "gz" 1 =
      .error (.residualDirty [["Manifest.files"]]) := by
  refine ⟨by decide, rfl, by decide⟩

end Gemato
